import Mathlib

/-!
Verification of the my_sky_observer backend core: the visibility-ranked
streaming pipeline with bounded-concurrency image caching.

The definitions below are a shallow embedding of `src/backend/main.py`,
`src/backend/astro_utils.py` and `src/backend/data_manager.py`.
Machine floats are modelled as exact rationals (`ℚ`) for the cache/stream
logic and as reals (`ℝ`) for the trigonometric visibility math; external
collaborators (the HTTP client, PIL image decode/encode, numpy pixel
numerics, the astropy angle parser, the catalog CSV files on disk) are
modelled as explicit function parameters.
-/

/-- Raw byte strings (HTTP bodies, image files) are modelled as lists of
byte values. -/
abbrev Bytes := List Nat

/-! ### Decimal formatting (Python `f"{x:.kf}"`)

`get_setup_hash` and `get_sky_survey_url` build strings with fixed-point
decimal formatting.  We model `f"{x:.kf}"` on an exact rational: the sign
of the value, then the digits of `round(|x| * 10^k)` split into integer
and `k`-digit fractional part.  (CPython resolves exact `.5` ties on the
underlying binary double to even; exact ties are measure-zero among the
derived FOV values, and no theorem below depends on tie direction.) -/

/-- The decimal digit character for `n < 10`. -/
def digitChar (n : Nat) : Char := Char.ofNat (48 + n)

/-- Decimal digits of `n`, most significant first (no leading zeros,
`0` renders as `"0"`). -/
def renderNat (n : Nat) : List Char :=
  if _h : n < 10 then [digitChar n]
  else renderNat (n / 10) ++ [digitChar (n % 10)]
termination_by n
decreasing_by exact Nat.div_lt_self (by omega) (by omega)

/-- Digits of a fractional part, left-padded with zeros to width `k`. -/
def fixedDigits (k frac : Nat) : List Char :=
  List.replicate (k - (renderNat frac).length) (digitChar 0) ++ renderNat frac

/-- The magnitude `|q|` scaled by `10^k` and rounded to an integer. -/
def scaled (k : Nat) (q : ℚ) : Nat := (round (|q| * (10 : ℚ) ^ k)).toNat

/-- Python `f"{q:.kf}"`: optional minus sign, integer digits, a dot and
exactly `k` fractional digits. -/
def fmtFixed (k : Nat) (q : ℚ) : String :=
  String.mk ((if q < 0 then [Char.ofNat 45] else []) ++
    renderNat (scaled k q / 10 ^ k) ++ Char.ofNat 46 :: fixedDigits k (scaled k q % 10 ^ k))

/-- Two-decimal formatting, as used for the cache folder name. -/
def fmt2 (q : ℚ) : String := fmtFixed 2 q

/-- Model of `get_setup_hash` (main.py): the cache partition key
`f"fov_{fov_w_deg:.2f}_{fov_h_deg:.2f}_p{image_padding:.2f}"`.  Note that
it depends only on the two FOV dimensions and the padding; the image
resolution (fixed at 512 px in `get_sky_survey_url`) and the survey name
(fixed `dss2r`) are not part of the key. -/
def get_setup_hash (fov_w_deg fov_h_deg image_padding : ℚ) : String :=
  "fov_" ++ fmt2 fov_w_deg ++ "_" ++ fmt2 fov_h_deg ++ "_p" ++ fmt2 image_padding

/-- Model of `CACHE_DIR` (main.py). -/
def CACHE_DIR : String := "image_cache"

/-- The characters stripped from object names before building a cache
filename (`<>:"/\|?*`). -/
def invalidChars : List Char := ['<', '>', ':', '"', '/', '\\', '|', '?', '*']

/-- Filename sanitization in `get_cache_info`: drop filesystem-unsafe
characters, then map space to underscore, the degree sign to `d` and the
arcminute tick to `m`. -/
def sanitize_name (s : String) : String :=
  String.mk ((s.data.filter (fun c => ¬ invalidChars.contains c)).map (fun c =>
    if c = ' ' then Char.ofNat 95
    else if c = Char.ofNat 176 then Char.ofNat 100
    else if c = Char.ofNat 39 then Char.ofNat 109
    else c))

/-- Model of `get_cache_info` (main.py): deterministic `(url, filepath, setup_dir)`
for a `(objectId, fingerprint)` pair. -/
def get_cache_info (object_name setup_hash : String) : String × String × String :=
  let filename := sanitize_name object_name ++ "_" ++ setup_hash ++ ".jpg"
  let setup_dir := CACHE_DIR ++ "/" ++ setup_hash
  let filepath := setup_dir ++ "/" ++ filename
  let url := "/cache/" ++ setup_hash ++ "/" ++ filename
  (url, filepath, setup_dir)

/-! ### External collaborators and the on-disk cache state -/

/-- The result of `requests.get` (status code, `Content-Type` header,
body bytes). -/
structure Fetch where
  status : Nat
  contentType : String
  content : Bytes
deriving DecidableEq

/-- The filesystem cache state: the set of existing directories and the
published files with their contents.  `os.path.exists` on a file path is
a lookup in `files`. -/
structure FS where
  dirs : List String
  files : List (String × Bytes)
deriving DecidableEq

/-- Model of `os.path.exists` for a file path. -/
def FS.existsFile (fs : FS) (p : String) : Bool := (fs.files.lookup p).isSome

/-- Model of the `open(filepath, 'wb').write(...)` step: publish a file. -/
def FS.writeFile (fs : FS) (p : String) (b : Bytes) : FS :=
  { fs with files := (p, b) :: fs.files }

/-- Model of `if not os.path.exists(d): os.makedirs(d, exist_ok=True)`. -/
def FS.makeDirs (fs : FS) (d : String) : FS :=
  if fs.dirs.contains d then fs else { fs with dirs := d :: fs.dirs }

/-- External collaborators of the image pipeline: the HTTP client, the
PIL luminance decoder (`Image.open(...).convert("L")`, `none` models a
decoding exception), the numpy percentile-stretch plus gamma-bisection
transform on the valid pixels (`none` models the degenerate
`p_max <= p_min` early return), and the JPEG quality-95 encoder. -/
structure Env where
  http : String → Fetch
  decodeL : Bytes → Option (List Nat)
  stretch : List Nat → Option (List Nat)
  encodeJpeg : List Nat → Bytes

/-- Python `str.startswith`: modelled over the character lists so that
it is kernel-computable. -/
def str_startswith (s pre : String) : Bool := pre.data.isPrefixOf s.data

/-- Model of `auto_stretch_image` (astro_utils.py).  Control flow of the source:
everything is wrapped in `try: ... except Exception: return image_bytes`,
so a decoding/processing failure returns the ORIGINAL bytes and never
raises; an image whose pixels are all exactly 0 or 255 (empty mask) and a
flat histogram (`p_max <= p_min`) likewise return the original bytes;
otherwise the stretched pixels are re-encoded as JPEG. -/
def auto_stretch_image (env : Env) (image_bytes : Bytes) : Bytes :=
  match env.decodeL image_bytes with
  | none => image_bytes
  | some arr =>
    let mask := arr.filter (fun p => 0 < p && p < 255)
    if mask.isEmpty then image_bytes
    else
      match env.stretch arr with
      | none => image_bytes
      | some out => env.encodeJpeg out

/-- Model of `download_and_cache_image` (main.py).  Ensures the partition
directory, re-checks existence, fetches (counted in the third component),
raises (`Except.error`) on an HTTP error status (`raise_for_status`) or a
`text/*` content type, otherwise stretches and publishes the file.  The
returned state keeps mutations that happened before an error (the
directory creation). -/
def download_and_cache_image (env : Env) (image_url filepath setup_dir : String)
    (fs : FS) : Except String Unit × FS × Nat :=
  let fs1 := fs.makeDirs setup_dir
  if fs1.existsFile filepath then (Except.ok (), fs1, 0)
  else
    let response := env.http image_url
    if 400 ≤ response.status then (Except.error "HTTPError", fs1, 1)
    else if str_startswith response.contentType "text/" then
      (Except.error ("SkyView returned non-image data: " ++ response.contentType), fs1, 1)
    else
      let stretched_bytes := auto_stretch_image env response.content
      (Except.ok (), fs1.writeFile filepath stretched_bytes, 1)

/-- Model of `get_sky_survey_url` (main.py).  `SkyCoord(...).ra.deg` wraps the
right ascension into `[0, 360)`; the requested size is clamped below at
`0.25` degrees; resolution (`Pixels=512`) and survey (`dss2r`) are fixed
constants of the URL. -/
def get_sky_survey_url (ra_deg dec_deg fov_in_degrees : ℚ) : String :=
  let ra := ra_deg - 360 * (⌊ra_deg / 360⌋ : ℚ)
  let download_fov := max fov_in_degrees (1 / 4)
  "https://skyview.gsfc.nasa.gov/current/cgi/runquery.pl?Survey=dss2r&Position=" ++
    fmtFixed 5 ra ++ "," ++ fmtFixed 5 dec_deg ++ "&Size=" ++ fmtFixed 4 download_fov ++
    "&Pixels=512&Return=JPG"

/-- Model of `download_image` (main.py): the Image Cache `fetchOrGet`.  Returns
the web URL on success together with the updated cache state and the
number of upstream fetches performed (0 or 1). -/
def download_image (env : Env) (ra dec fov : ℚ) (object_id setup_hash : String)
    (fs : FS) : Except String String × FS × Nat :=
  let info := get_cache_info object_id setup_hash
  if fs.existsFile info.2.1 then (Except.ok info.1, fs, 0)
  else
    let live_url := get_sky_survey_url ra dec fov
    match download_and_cache_image env live_url info.2.1 info.2.2 fs with
    | (Except.ok _, fs1, n) => (Except.ok info.1, fs1, n)
    | (Except.error e, fs1, n) => (Except.error e, fs1, n)

/-! ### The event stream (`event_stream` in main.py)

The SSE generator is modelled as a pure function from the ranked object
list (the output of `get_sorted_objects`), the request settings and the
cache state to the list of emitted frames.  The model covers a complete
session: `request.is_disconnected()` is `False` throughout (cooperative
cancellation only truncates the sequence), and the download queue is
drained in task order (every queue frame is an `image_status` frame, so
the name-level and count-level properties proved below hold for any
interleaving of the worker outputs). -/

/-- The fields of a ranked object that the stream and the fetcher use. -/
structure StreamObj where
  id : String
  ra : ℚ
  dec : ℚ
deriving DecidableEq

/-- A named SSE frame.  The constructors are exactly the
`yield "event: ..."` literals of `event_stream` and its workers. -/
inductive Event where
  | total (n : Nat)
  | twilight_info (data : String)
  | night_times (data : String)
  | object_data (id : String) (status : String)
  | image_status (id : String) (status : String) (url : Option String)
  | close (msg : String)
  | error (msg : String)
deriving DecidableEq

/-- The SSE `event:` name of a frame. -/
def Event.name : Event → String
  | .total _ => "total"
  | .twilight_info _ => "twilight_info"
  | .night_times _ => "night_times"
  | .object_data _ _ => "object_data"
  | .image_status _ _ _ => "image_status"
  | .close _ => "close"
  | .error _ => "error"

/-- Whether a frame is a terminal per-object fetch outcome. -/
def Event.isTerminal : Event → Bool
  | .image_status _ s _ => s == "cached" || s == "error"
  | _ => false

/-- The per-object status sent in an `object_data` frame: `cached` when
the file already exists, otherwise `queued` when the download mode is
`all` (the object will be handed to the fetcher) and `pending` when not
(`selected`/`filtered`: no automatic download). -/
def detail_status (fs : FS) (setup_hash download_mode : String) (o : StreamObj) : String :=
  if fs.existsFile (get_cache_info o.id setup_hash).2.1 then "cached"
  else if download_mode = "all" then "queued" else "pending"

/-- The cache-miss subset handed to the Bounded Fetcher (built while
streaming the details; empty unless `download_mode == 'all'`). -/
def objects_to_download (fs : FS) (setup_hash download_mode : String)
    (top : List StreamObj) : List StreamObj :=
  if download_mode = "all" then
    top.filter (fun o => ¬ fs.existsFile (get_cache_info o.id setup_hash).2.1)
  else []

/-- One fetcher task (`worker` in main.py): enqueue a `downloading`
status (the source enqueues it twice, before and inside the `try`), call
`download_image`, then enqueue `cached` with the URL on success or
`error` on failure. -/
def worker_events (env : Env) (setup_hash : String) (download_fov : ℚ)
    (o : StreamObj) (fs : FS) : List Event × FS × Nat :=
  let pre := [Event.image_status o.id "downloading" none,
              Event.image_status o.id "downloading" none]
  match download_image env o.ra o.dec download_fov o.id setup_hash fs with
  | (Except.ok url, fs1, n) => (pre ++ [Event.image_status o.id "cached" (some url)], fs1, n)
  | (Except.error _, fs1, n) => (pre ++ [Event.image_status o.id "error" none], fs1, n)

/-- The download phase: run every queued task and drain the queue.  One
failure does not cancel sibling tasks. -/
def download_phase (env : Env) (setup_hash : String) (download_fov : ℚ) :
    List StreamObj → FS → List Event × FS
  | [], fs => ([], fs)
  | o :: rest, fs =>
    let r := worker_events env setup_hash download_fov o fs
    let r2 := download_phase env setup_hash download_fov rest r.2.1
    (r.1 ++ r2.1, r2.2)

/-- Model of `event_stream` (main.py) for a complete session.  `twilight` is the
JSON payload computed by the astropy collaborator; `fov_w_deg`/`fov_h_deg`
come from `calculate_fov`; `objs` is the ranked list produced by
`get_sorted_objects`.  An empty list short-circuits to
`close("No objects found")`; otherwise the frames are: `total`, then
`twilight_info` and `night_times` (same payload twice), one `object_data`
frame for each of the first 200 ranked objects, the fetcher frames, and
`close("Stream complete")`. -/
def event_stream (env : Env) (twilight : String)
    (fov_w_deg fov_h_deg image_padding : ℚ) (download_mode : String)
    (objs : List StreamObj) (fs : FS) : List Event × FS :=
  if objs.isEmpty then ([Event.close "No objects found"], fs)
  else
    let setup_hash := get_setup_hash fov_w_deg fov_h_deg image_padding
    let max_fov_deg := max fov_w_deg fov_h_deg
    let download_fov := max (max_fov_deg * image_padding) (1 / 4)
    let top := objs.take 200
    let detailEvents := top.map (fun o =>
      Event.object_data o.id (detail_status fs setup_hash download_mode o))
    let toDl := objects_to_download fs setup_hash download_mode top
    let dl := download_phase env setup_hash download_fov toDl fs
    ([Event.total objs.length, Event.twilight_info twilight, Event.night_times twilight]
      ++ detailEvents ++ dl.1 ++ [Event.close "Stream complete"], dl.2)

/-! ### The Catalog Store merge (`get_all_objects` in data_manager.py) -/

/-- A catalog record as used by the merge: the designation `id` and the
`catalog` tag set by `get_all_objects`; the remaining columns (name,
coordinates, magnitude, size, ...) are carried through unchanged and play
no role in the merge. -/
structure CatObj where
  id : String
  catalog : String
deriving DecidableEq

/-- Model of the `df['catalog'] = name.upper()` tagging step. -/
def set_catalog (name : String) (o : CatObj) : CatObj :=
  { o with catalog := name.toUpper }

/-- Model of `get_all_objects` (data_manager.py): for each requested name, load
the catalog from the store (`none` models `FileNotFoundError`/bad format,
which is skipped with a warning), tag each record with the uppercased
catalog name, and concatenate everything in request order.  No
deduplication is performed. -/
def get_all_objects (store : String → Option (List CatObj))
    (catalog_names : List String) : List CatObj :=
  (catalog_names.filterMap (fun n => (store n).map (List.map (set_catalog n)))).flatten

/-! ### Visibility Engine (`astro_utils.py`)

The float trigonometry is modelled over `ℝ`.  Both `get_max_altitude`
and `get_approx_hours_above` accept either a numeric declination or a
string: the string is sanitized by `re.sub(r"[^\d.\-]", " ", s).strip()`
and handed to the astropy `Angle` parser (an external collaborator,
modelled as a function returning `none` on a parse exception); the
surrounding `try/except` makes any failure return `0.0`. -/

/-- A declination argument: a number or a raw catalog string. -/
inductive DecInput where
  | num (x : ℝ)
  | str (s : String)

/-- Model of the `re.sub(r"[^\d.\-]", " ", str(dec)).strip()` sanitization. -/
def sanitizeDec (s : String) : String :=
  (String.mk (s.data.map (fun c =>
    if c.isDigit || c = Char.ofNat 46 || c = Char.ofNat 45 then c else ' '))).trim

/-- Model of `math.radians`. -/
noncomputable def radians (x : ℝ) : ℝ := x * Real.pi / 180

/-- Model of `get_max_altitude` (astro_utils.py): `max(0, 90 - abs(lat - dec))`,
with `0.0` on any declination parse failure. -/
noncomputable def get_max_altitude (parseAngle : String → Option ℝ)
    (dec : DecInput) (latitude : ℝ) : ℝ :=
  match dec with
  | .num d => max 0 (90 - |latitude - d|)
  | .str s =>
    match parseAngle (sanitizeDec s) with
    | some d => max 0 (90 - |latitude - d|)
    | none => 0

/-- The denominator `cos(phi) * cos(delta)` of the hour-angle formula. -/
noncomputable def hoursDenominator (dec_deg latitude : ℝ) : ℝ :=
  Real.cos (radians latitude) * Real.cos (radians dec_deg)

/-- The numerator `sin(h) - sin(phi) * sin(delta)` of the hour-angle
formula. -/
noncomputable def hoursNumerator (dec_deg latitude min_altitude : ℝ) : ℝ :=
  Real.sin (radians min_altitude) - Real.sin (radians latitude) * Real.sin (radians dec_deg)

open Classical in
/-- The numeric core of `get_approx_hours_above`: the spherical
hour-angle method.  `h_deg = math.degrees(math.acos(cos_h))` and the
returned duration is `2 * h_deg / 15` hours. -/
noncomputable def hoursCore (dec_deg latitude min_altitude : ℝ) : ℝ :=
  if hoursDenominator dec_deg latitude = 0 then 0
  else
    let cos_h := hoursNumerator dec_deg latitude min_altitude / hoursDenominator dec_deg latitude
    if 1 ≤ cos_h then 0
    else if cos_h ≤ -1 then 24
    else 2 * (Real.arccos cos_h * 180 / Real.pi) / 15

/-- Model of `get_approx_hours_above` (astro_utils.py), with the declination
parsing front end and the fail-closed `except: return 0.0`. -/
noncomputable def get_approx_hours_above (parseAngle : String → Option ℝ)
    (dec : DecInput) (latitude min_altitude : ℝ) : ℝ :=
  match dec with
  | .num d => hoursCore d latitude min_altitude
  | .str s =>
    match parseAngle (sanitizeDec s) with
    | some d => hoursCore d latitude min_altitude
    | none => 0

/-! ## Helper lemmas about the cache state -/

lemma FS.files_makeDirs (fs : FS) (d : String) : (fs.makeDirs d).files = fs.files := by
  unfold FS.makeDirs; split <;> rfl

lemma FS.existsFile_makeDirs (fs : FS) (d p : String) :
    (fs.makeDirs d).existsFile p = fs.existsFile p := by
  unfold FS.existsFile; rw [FS.files_makeDirs]

lemma FS.existsFile_writeFile_self (fs : FS) (p : String) (b : Bytes) :
    (fs.writeFile p b).existsFile p = true := by
  unfold FS.writeFile FS.existsFile
  simp [List.lookup]

/-! ## Concrete fixtures used by witnesses and counterexamples -/

/-- The empty cache. -/
def fs0 : FS := { dirs := [], files := [] }

/-- An upstream response: HTTP 200 with an image content type. -/
def fetchJpeg : Fetch := { status := 200, contentType := "image/jpeg", content := [7, 7, 7] }

/-- Collaborators where the upstream always serves `fetchJpeg` and the
image decoder always fails (bytes PIL cannot identify). -/
def envOk : Env :=
  { http := fun _ => fetchJpeg, decodeL := fun _ => none,
    stretch := fun _ => none, encodeJpeg := fun _ => [] }

/-- Collaborators where the upstream answers HTTP 200 with an HTML error
page. -/
def envText : Env :=
  { http := fun _ => { status := 200, contentType := "text/html", content := [60, 104] },
    decodeL := fun _ => none, stretch := fun _ => none, encodeJpeg := fun _ => [] }

/-! ## C2: fetch-or-get idempotence -/

/-- C2: for every `(fingerprint, objectId)` pair, a cache hit returns the
URL immediately with no upstream fetch and no state change; consequently
two sequential calls with identical keys where the first succeeds perform
exactly one upstream fetch in total when the cache was cold (and zero
when it was already warm), and the second call returns the same URL from
the unchanged cache state. -/
theorem C2_fetchOrGet_idempotent (env : Env) (ra dec fov : ℚ) (oid hash : String) (fs : FS) :
    (fs.existsFile (get_cache_info oid hash).2.1 = true →
      download_image env ra dec fov oid hash fs = (Except.ok (get_cache_info oid hash).1, fs, 0)) ∧
    (∀ url fs1 n, download_image env ra dec fov oid hash fs = (Except.ok url, fs1, n) →
      url = (get_cache_info oid hash).1 ∧
      (fs.existsFile (get_cache_info oid hash).2.1 = false → n = 1) ∧
      download_image env ra dec fov oid hash fs1 = (Except.ok url, fs1, 0)) := by
  constructor
  · intro hhit
    simp [download_image, hhit]
  · intro url fs1 n heq
    by_cases hhit : fs.existsFile (get_cache_info oid hash).2.1 = true
    · simp [download_image, hhit] at heq
      obtain ⟨h1, h2, h3⟩ := heq
      subst h1; subst h2; subst h3
      exact ⟨rfl, by simp [hhit], by simp [download_image, hhit]⟩
    · have hmiss : fs.existsFile (get_cache_info oid hash).2.1 = false := by
        simpa using hhit
      by_cases hst : 400 ≤ (env.http (get_sky_survey_url ra dec fov)).status
      · simp [download_image, hmiss, download_and_cache_image,
              FS.existsFile_makeDirs, hst] at heq
      · by_cases hct : str_startswith (env.http (get_sky_survey_url ra dec fov)).contentType "text/" = true
        · simp [download_image, hmiss, download_and_cache_image,
                FS.existsFile_makeDirs, hst, hct] at heq
        · have hct' : str_startswith (env.http (get_sky_survey_url ra dec fov)).contentType "text/" = false := by
            simpa using hct
          simp [download_image, hmiss, download_and_cache_image,
                FS.existsFile_makeDirs, hst, hct'] at heq
          obtain ⟨h1, h2, h3⟩ := heq
          subst h1; subst h2; subst h3
          refine ⟨rfl, fun _ => rfl, ?_⟩
          simp [download_image, FS.existsFile_writeFile_self]

/-- The cache state after a first (cold) fetch of M31. -/
def fsAfterFirst : FS := (download_image envOk 10 41 1 "M31" "hash1" fs0).2.1

/-- Witness for C2 at a concrete cold cache: the first call fetches
exactly once; the second call, applied to the resulting state, returns
the same URL with zero fetches and no state change. -/
theorem C2_witness :
    fs0.existsFile (get_cache_info "M31" "hash1").2.1 = false ∧
    (download_image envOk 10 41 1 "M31" "hash1" fs0).2.2 = 1 ∧
    download_image envOk 10 41 1 "M31" "hash1" fsAfterFirst =
      (Except.ok (get_cache_info "M31" "hash1").1, fsAfterFirst, 0) := by
  have h := (C2_fetchOrGet_idempotent envOk 10 41 1 "M31" "hash1" fs0).2
      (get_cache_info "M31" "hash1").1 fsAfterFirst 1 (by rfl)
  exact ⟨rfl, h.2.1 rfl, h.2.2⟩

/-! ## C6: HTTP 200 with a text content type is rejected -/

/-- C6: on a cache miss, if the upstream answers HTTP 200 with a `text/*`
content type, `download_image` fails with an error and no cache file is
created: the published files are exactly those of the initial state (only
the partition directory may have been created). -/
theorem C6_text_payload_rejected (env : Env) (ra dec fov : ℚ) (oid hash : String) (fs : FS)
    (hmiss : fs.existsFile (get_cache_info oid hash).2.1 = false)
    (hstatus : (env.http (get_sky_survey_url ra dec fov)).status = 200)
    (htext : str_startswith (env.http (get_sky_survey_url ra dec fov)).contentType "text/" = true) :
    (∃ msg, (download_image env ra dec fov oid hash fs).1 = Except.error msg) ∧
    (download_image env ra dec fov oid hash fs).2.1.files = fs.files := by
  have hst : ¬ 400 ≤ (env.http (get_sky_survey_url ra dec fov)).status := by omega
  refine ⟨⟨"SkyView returned non-image data: " ++
      (env.http (get_sky_survey_url ra dec fov)).contentType, ?_⟩, ?_⟩ <;>
    simp [download_image, hmiss, download_and_cache_image, FS.existsFile_makeDirs,
          hst, htext, FS.files_makeDirs]

/-- Witness for C6: a concrete upstream answering 200/`text/html` on a
cold cache yields an error and leaves the file set untouched. -/
theorem C6_witness :
    (∃ msg, (download_image envText 10 41 1 "M31" "hash1" fs0).1 = Except.error msg) ∧
    (download_image envText 10 41 1 "M31" "hash1" fs0).2.1.files = fs0.files :=
  C6_text_payload_rejected envText 10 41 1 "M31" "hash1" fs0 rfl rfl (by decide)

/-! ## C4: what happens when post-processing fails

The spec claims a processing failure is propagated and no cache entry is
created.  In the source, `auto_stretch_image` catches every exception and
returns the original bytes (`except Exception: return image_bytes`), so
`download_and_cache_image` never sees a processing error: it caches the
ORIGINAL bytes and reports success. -/

/-- C4 counterexample: a concrete fetch whose post-processing fails (the
decoder rejects the body) nevertheless succeeds, and a cache entry
holding the original unprocessed bytes is created. -/
theorem C4_counterexample :
    envOk.decodeL fetchJpeg.content = none ∧
    (download_image envOk 10 41 1 "M31" "hash1" fs0).1 =
      Except.ok (get_cache_info "M31" "hash1").1 ∧
    (download_image envOk 10 41 1 "M31" "hash1" fs0).2.1.files =
      [((get_cache_info "M31" "hash1").2.1, fetchJpeg.content)] ∧
    fs0.files = [] :=
  ⟨rfl, rfl, rfl, rfl⟩

/-- C4 amended: when post-processing fails, the failure is NOT propagated
and a cache entry IS created: `auto_stretch_image` returns the original
bytes unchanged, and `download_and_cache_image` succeeds, publishing the
original (unprocessed) bytes at the cache path. -/
theorem C4_processing_failure_caches_original (env : Env) (u fp dir : String) (fs : FS)
    (hdec : env.decodeL (env.http u).content = none)
    (hmiss : fs.existsFile fp = false)
    (hstatus : (env.http u).status < 400)
    (hct : str_startswith (env.http u).contentType "text/" = false) :
    auto_stretch_image env (env.http u).content = (env.http u).content ∧
    download_and_cache_image env u fp dir fs =
      (Except.ok (), (fs.makeDirs dir).writeFile fp (env.http u).content, 1) := by
  have hstretch : auto_stretch_image env (env.http u).content = (env.http u).content := by
    simp [auto_stretch_image, hdec]
  have hst : ¬ 400 ≤ (env.http u).status := by omega
  refine ⟨hstretch, ?_⟩
  simp [download_and_cache_image, FS.existsFile_makeDirs, hmiss, hst, hct, hstretch]

/-- Witness for the amended C4 at the concrete failing decoder. -/
theorem C4_witness :
    auto_stretch_image envOk fetchJpeg.content = fetchJpeg.content ∧
    download_and_cache_image envOk "u" "p" "d" fs0 =
      (Except.ok (), (fs0.makeDirs "d").writeFile "p" fetchJpeg.content, 1) :=
  C4_processing_failure_caches_original envOk "u" "p" "d" fs0 rfl rfl (by decide) (by decide)

/-! ## C7: the catalog merge does not deduplicate -/

/-- A store in which two different catalogs list the same object id
(astronomically common: overlapping catalogs). -/
def storeDup : String → Option (List CatObj) := fun n =>
  if n = "messier" then some [{ id := "NGC1976", catalog := "" }]
  else if n = "ngc" then some [{ id := "NGC1976", catalog := "" }]
  else none

/-- C7 counterexample: merging two catalogs that share an object id
yields two records with the same id — `get_all_objects` performs no
deduplication. -/
theorem C7_counterexample :
    ¬ (get_all_objects storeDup ["messier", "ngc"]).Pairwise (fun a b => a.id ≠ b.id) := by
  decide

/-- C7 amended: the merge is the in-order concatenation of the
successfully loaded catalogs with records tagged by their uppercased
catalog name; records with equal ids are NOT merged — the number of
records carrying a given id equals the sum of its occurrences over the
loaded catalogs. -/
theorem C7_merge_preserves_occurrences (store : String → Option (List CatObj))
    (names : List String) (x : String) :
    (get_all_objects store names).countP (fun o => o.id == x) =
      ((names.filterMap store).map (fun l => l.countP (fun o => o.id == x))).sum := by
  induction names with
  | nil => rfl
  | cons n rest ih =>
    cases h : store n with
    | none =>
      simp only [get_all_objects, List.filterMap_cons, h, Option.map_none'] at *
      exact ih
    | some l =>
      simp only [get_all_objects, List.filterMap_cons, h, Option.map_some',
        List.flatten_cons, List.countP_append, List.map_cons, List.sum_cons] at *
      rw [ih, List.countP_map]
      rfl

/-! ## Stream helper lemmas -/

lemma worker_events_names (env : Env) (hash : String) (fov : ℚ) (o : StreamObj) (fs : FS) :
    ∀ e ∈ (worker_events env hash fov o fs).1, e.name = "image_status" := by
  unfold worker_events
  rcases hdl : download_image env o.ra o.dec fov o.id hash fs with ⟨r, fs1, n⟩
  cases r <;> intro e he <;> simp at he <;> rcases he with rfl | rfl | rfl <;> rfl

lemma worker_events_terminal_count (env : Env) (hash : String) (fov : ℚ)
    (o : StreamObj) (fs : FS) :
    (worker_events env hash fov o fs).1.countP Event.isTerminal = 1 := by
  unfold worker_events
  rcases hdl : download_image env o.ra o.dec fov o.id hash fs with ⟨r, fs1, n⟩
  cases r <;> simp [List.countP_cons, List.countP_append, Event.isTerminal]

lemma download_phase_names (env : Env) (hash : String) (fov : ℚ) :
    ∀ (objs : List StreamObj) (fs : FS),
      ∀ e ∈ (download_phase env hash fov objs fs).1, e.name = "image_status" := by
  intro objs
  induction objs with
  | nil => intro fs e he; simp [download_phase] at he
  | cons o rest ih =>
    intro fs e he
    simp only [download_phase, List.mem_append] at he
    rcases he with h | h
    · exact worker_events_names env hash fov o fs e h
    · exact ih _ e h

lemma download_phase_terminal_count (env : Env) (hash : String) (fov : ℚ) :
    ∀ (objs : List StreamObj) (fs : FS),
      (download_phase env hash fov objs fs).1.countP Event.isTerminal = objs.length := by
  intro objs
  induction objs with
  | nil => intro fs; rfl
  | cons o rest ih =>
    intro fs
    simp only [download_phase, List.countP_append, worker_events_terminal_count, ih,
      List.length_cons]
    omega

lemma map_eq_replicate_of_forall {α β : Type} {l : List α} {f : α → β} {b : β}
    (h : ∀ e ∈ l, f e = b) : l.map f = List.replicate l.length b := by
  induction l with
  | nil => rfl
  | cons a rest ih =>
    simp only [List.map_cons, List.length_cons, List.replicate_succ]
    exact congrArg₂ (· :: ·) (h a (by simp)) (ih (fun e he => h e (by simp [he])))

/-! ## C1: the emitted frame names and their order -/

/-- The eight event names enumerated by the spec wire protocol. -/
def allowedNames : List String :=
  ["total", "twilight_info", "catalog_metadata", "object_details",
   "download_progress", "image_status", "error", "close"]

/-- C1 as stated (frame-name discipline): every emitted frame is drawn
from the eight spec event names, no frame with any other name. -/
def framesFromSpecNames (evs : List Event) : Prop := ∀ e ∈ evs, e.name ∈ allowedNames

/-- A concrete one-object ranked list. -/
def objM31 : StreamObj := { id := "M31", ra := 10, dec := 41 }

/-- A complete run on a non-empty ranked list (download mode
`selected`). -/
def streamC1 : List Event := (event_stream envOk "tw" 1 1 (21 / 20) "selected" [objM31] fs0).1

/-- C1 counterexample: a run on a non-empty ranked list emits the frames
`night_times` and `object_data`, which are not among the eight spec
names (and no `catalog_metadata`/`object_details`/`download_progress`
frame exists in the generator at all). -/
theorem C1_counterexample : ¬ framesFromSpecNames streamC1 := by
  show ¬ ∀ e ∈ streamC1, e.name ∈ allowedNames
  decide

/-- C1 amended: for every non-empty ranked list, the frame names are, in
order: `total`, `twilight_info`, `night_times` (the twilight payload is
sent twice under two names), one `object_data` frame per object among the
first 200 of the ranked list (per-object metadata; there is no single
bulk `catalog_metadata` frame), then only `image_status` frames from the
fetcher (no `download_progress` frames exist), and finally
`close("Stream complete")`. -/
theorem C1_stream_order (env : Env) (tw : String) (w h p : ℚ) (mode : String)
    (objs : List StreamObj) (fs : FS) (hne : objs ≠ []) :
    ∃ k, (event_stream env tw w h p mode objs fs).1.map Event.name =
        ["total", "twilight_info", "night_times"]
          ++ List.replicate (min 200 objs.length) "object_data"
          ++ List.replicate k "image_status" ++ ["close"] ∧
      (event_stream env tw w h p mode objs fs).1.getLast? =
        some (Event.close "Stream complete") := by
  have hne' : objs.isEmpty = false := by
    cases objs with
    | nil => exact absurd rfl hne
    | cons a l => rfl
  refine ⟨(download_phase env (get_setup_hash w h p)
      (max (max w h * p) (1 / 4))
      (objects_to_download fs (get_setup_hash w h p) mode (objs.take 200)) fs).1.length,
    ?_, ?_⟩
  · simp only [event_stream, hne', Bool.false_eq_true, if_false, List.map_append,
      List.map_cons, List.map_nil, List.map_map]
    have hdetail : (objs.take 200).map (Event.name ∘ fun o =>
        Event.object_data o.id (detail_status fs (get_setup_hash w h p) mode o)) =
        List.replicate (min 200 objs.length) "object_data" := by
      have h1 := map_eq_replicate_of_forall (l := objs.take 200)
        (f := Event.name ∘ fun o =>
          Event.object_data o.id (detail_status fs (get_setup_hash w h p) mode o))
        (b := "object_data") (fun e _ => rfl)
      rwa [List.length_take] at h1
    have hdl := map_eq_replicate_of_forall
      (download_phase_names env (get_setup_hash w h p)
        (max (max w h * p) (1 / 4))
        (objects_to_download fs (get_setup_hash w h p) mode (objs.take 200)) fs)
    rw [hdetail, hdl]
    rfl
  · simp only [event_stream, hne', Bool.false_eq_true, if_false]
    exact List.getLast?_concat _

/-- Witness for the amended C1 at a concrete non-empty one-object run. -/
theorem C1_witness :
    ∃ k, (event_stream envOk "tw" 1 1 (21 / 20) "all" [objM31] fs0).1.map Event.name =
        ["total", "twilight_info", "night_times"]
          ++ List.replicate (min 200 [objM31].length) "object_data"
          ++ List.replicate k "image_status" ++ ["close"] ∧
      (event_stream envOk "tw" 1 1 (21 / 20) "all" [objM31] fs0).1.getLast? =
        some (Event.close "Stream complete") :=
  C1_stream_order envOk "tw" 1 1 (21 / 20) "all" [objM31] fs0 (List.cons_ne_nil _ _)

/-! ## C5: fetcher outcome frames and the absence of progress frames -/

/-- A complete run in download mode `all` with one uncached object: the
fetcher runs exactly one task, which succeeds. -/
def streamC5 : List Event := (event_stream envOk "tw" 1 1 (21 / 20) "all" [objM31] fs0).1

/-- C5 counterexample: a session with one completed fetch task emits its
terminal `image_status` frame, but NO `(completed, total)` progress frame
is ever emitted — no frame named `download_progress` exists anywhere in
the stream. -/
theorem C5_counterexample :
    streamC5.countP Event.isTerminal = 1 ∧
    ¬ ∃ e ∈ streamC5, e.name = "download_progress" := by
  constructor <;> decide

/-- C5 amended: every fetcher task emits exactly one terminal per-object
status (`cached` on success, `error` on failure) regardless of the
outcome — errors do not stall the count — and the fetcher phase emits
only `image_status` frames; no `(completed, total)` progress tuples are
emitted. -/
theorem C5_terminal_status_per_task (env : Env) (hash : String) (fov : ℚ)
    (objs : List StreamObj) (fs : FS) :
    (download_phase env hash fov objs fs).1.countP Event.isTerminal = objs.length ∧
    ∀ e ∈ (download_phase env hash fov objs fs).1, e.name = "image_status" :=
  ⟨download_phase_terminal_count env hash fov objs fs,
   download_phase_names env hash fov objs fs⟩

/-! ## C9: maximum altitude -/

/-- C9: `get_max_altitude` always lands in `[0, 90]`; for numeric
declinations it equals `90 - |lat - dec|` whenever that value is within
range; and for a malformed declination string (the angle parser fails) it
fails closed to `0.0`. -/
theorem C9_max_altitude (parseAngle : String → Option ℝ) (dec : DecInput) (lat : ℝ) :
    (0 ≤ get_max_altitude parseAngle dec lat ∧ get_max_altitude parseAngle dec lat ≤ 90) ∧
    (∀ d : ℝ, dec = DecInput.num d → 0 ≤ 90 - |lat - d| →
      get_max_altitude parseAngle dec lat = 90 - |lat - d|) ∧
    (∀ s : String, dec = DecInput.str s → parseAngle (sanitizeDec s) = none →
      get_max_altitude parseAngle dec lat = 0) := by
  refine ⟨?_, ?_, ?_⟩
  · cases dec with
    | num d =>
      exact ⟨le_max_left _ _,
        max_le (by norm_num) (by linarith [abs_nonneg (lat - d)])⟩
    | str s =>
      rcases hp : parseAngle (sanitizeDec s) with _ | d
      · simp only [get_max_altitude, hp]
        norm_num
      · simp only [get_max_altitude, hp]
        exact ⟨le_max_left _ _,
          max_le (by norm_num) (by linarith [abs_nonneg (lat - d)])⟩
  · rintro d rfl hd
    exact max_eq_right hd
  · rintro s rfl hs
    simp only [get_max_altitude, hs]

/-- Witness for C9: the spec scenario `dec = +90, lat = 51.5` gives
`51.5`, and a malformed string declination gives `0.0`. -/
theorem C9_witness :
    get_max_altitude (fun _ => none) (DecInput.num 90) 51.5 = 51.5 ∧
    get_max_altitude (fun _ => none) (DecInput.str "bogus") 51.5 = 0 := by
  constructor
  · have h := (C9_max_altitude (fun _ => none) (DecInput.num 90) 51.5).2.1 90 rfl
      (by rw [abs_of_nonpos] <;> norm_num)
    rw [h, abs_of_nonpos] <;> norm_num
  · exact (C9_max_altitude (fun _ => none) (DecInput.str "bogus") 51.5).2.2 "bogus" rfl rfl

/-! ## C8: hours above a minimum altitude -/

/-- C8: for numeric (valid) inputs, `get_approx_hours_above` lands in
`[0, 24]` and follows the spherical hour-angle method: `0` when the
denominator `cos(lat)cos(dec)` is `0` (pole), `0` when `cosH ≥ 1` (never
rises above the minimum altitude), `24` when `cosH ≤ -1` (circumpolar),
and `2·acos(cosH)·(12/π)` hours otherwise. -/
theorem C8_hours_above (parseAngle : String → Option ℝ) (d lat minAlt : ℝ) :
    (0 ≤ get_approx_hours_above parseAngle (DecInput.num d) lat minAlt ∧
      get_approx_hours_above parseAngle (DecInput.num d) lat minAlt ≤ 24) ∧
    (hoursDenominator d lat = 0 →
      get_approx_hours_above parseAngle (DecInput.num d) lat minAlt = 0) ∧
    (hoursDenominator d lat ≠ 0 →
      (1 ≤ hoursNumerator d lat minAlt / hoursDenominator d lat →
        get_approx_hours_above parseAngle (DecInput.num d) lat minAlt = 0) ∧
      (hoursNumerator d lat minAlt / hoursDenominator d lat ≤ -1 →
        get_approx_hours_above parseAngle (DecInput.num d) lat minAlt = 24) ∧
      (-1 < hoursNumerator d lat minAlt / hoursDenominator d lat →
        hoursNumerator d lat minAlt / hoursDenominator d lat < 1 →
        get_approx_hours_above parseAngle (DecInput.num d) lat minAlt =
          2 * Real.arccos (hoursNumerator d lat minAlt / hoursDenominator d lat) *
            (12 / Real.pi))) := by
  have hred : get_approx_hours_above parseAngle (DecInput.num d) lat minAlt =
      hoursCore d lat minAlt := rfl
  have hπ : (0 : ℝ) < Real.pi := Real.pi_pos
  refine ⟨?_, ?_, ?_⟩
  · rw [hred]
    unfold hoursCore
    by_cases h1 : hoursDenominator d lat = 0
    · rw [if_pos h1]; norm_num
    · rw [if_neg h1]
      by_cases h2 : 1 ≤ hoursNumerator d lat minAlt / hoursDenominator d lat
      · rw [if_pos h2]; norm_num
      · rw [if_neg h2]
        by_cases h3 : hoursNumerator d lat minAlt / hoursDenominator d lat ≤ -1
        · rw [if_pos h3]; norm_num
        · rw [if_neg h3]
          set c := hoursNumerator d lat minAlt / hoursDenominator d lat with hc
          have ha0 : 0 ≤ Real.arccos c := Real.arccos_nonneg c
          have haπ : Real.arccos c ≤ Real.pi := Real.arccos_le_pi c
          constructor
          · have hq : 0 ≤ Real.arccos c * 180 / Real.pi :=
              div_nonneg (mul_nonneg ha0 (by norm_num)) hπ.le
            linarith
          · have hstep : Real.arccos c * 180 / Real.pi ≤ 180 := by
              rw [div_le_iff₀ hπ]
              nlinarith
            linarith
  · intro hden
    rw [hred]
    unfold hoursCore
    rw [if_pos hden]
  · intro hden
    refine ⟨?_, ?_, ?_⟩
    · intro hge
      rw [hred]
      unfold hoursCore
      rw [if_neg hden, if_pos hge]
    · intro hle
      rw [hred]
      unfold hoursCore
      rw [if_neg hden, if_neg (by linarith), if_pos hle]
    · intro hgt hlt
      rw [hred]
      unfold hoursCore
      rw [if_neg hden, if_neg (by linarith), if_neg (by linarith)]
      field_simp
      ring

/-- Witness for C8 at three concrete scenarios: latitude 90 (pole:
denominator 0 gives 0), an object that never clears `minAlt = 90` from
the equator (`cosH = 1` gives 0), and one that is circumpolar above
`minAlt = -90` (`cosH = -1` gives 24). -/
theorem C8_witness :
    get_approx_hours_above (fun _ => none) (DecInput.num 0) 90 0 = 0 ∧
    get_approx_hours_above (fun _ => none) (DecInput.num 0) 0 90 = 0 ∧
    get_approx_hours_above (fun _ => none) (DecInput.num 0) 0 (-90) = 24 := by
  have hr0 : radians 0 = 0 := by unfold radians; ring
  have hr90 : radians 90 = Real.pi / 2 := by unfold radians; ring
  have hrm90 : radians (-90) = -(Real.pi / 2) := by unfold radians; ring
  have hden1 : hoursDenominator 0 90 = 0 := by
    unfold hoursDenominator; rw [hr90, hr0, Real.cos_pi_div_two]; ring
  have hden2 : hoursDenominator 0 0 = 1 := by
    unfold hoursDenominator; rw [hr0, Real.cos_zero]; ring
  have hnum2 : hoursNumerator 0 0 90 = 1 := by
    unfold hoursNumerator; rw [hr90, hr0, Real.sin_pi_div_two, Real.sin_zero]; ring
  have hnum3 : hoursNumerator 0 0 (-90) = -1 := by
    unfold hoursNumerator
    rw [hrm90, hr0, Real.sin_neg, Real.sin_pi_div_two, Real.sin_zero]; ring
  refine ⟨?_, ?_, ?_⟩
  · exact (C8_hours_above (fun _ => none) 0 90 0).2.1 hden1
  · exact ((C8_hours_above (fun _ => none) 0 0 90).2.2 (by rw [hden2]; norm_num)).1
      (by rw [hnum2, hden2]; norm_num)
  · exact ((C8_hours_above (fun _ => none) 0 0 (-90)).2.2 (by rw [hden2]; norm_num)).2.1
      (by rw [hnum3, hden2]; norm_num)

/-! ## Decimal-format injectivity machinery (for C3 and C10)

Two formatted values are equal exactly when the scaled roundings agree.
The proof reads the digit string back: `digitsVal` is a left inverse of
the renderers, and the dot and underscore markers never occur among the
digit characters, so the components of a fingerprint can be split off. -/

/-- Numeric value of a digit character. -/
def digitVal (c : Char) : Nat := c.toNat - 48

/-- Value of a most-significant-first digit list, accumulator style. -/
def digitsVal (acc : Nat) : List Char → Nat
  | [] => acc
  | c :: cs => digitsVal (10 * acc + digitVal c) cs

lemma digitsVal_append (acc : Nat) (l l' : List Char) :
    digitsVal acc (l ++ l') = digitsVal (digitsVal acc l) l' := by
  induction l generalizing acc with
  | nil => rfl
  | cons c cs ih => exact ih (10 * acc + digitVal c)

lemma digitVal_digitChar {n : Nat} (h : n < 10) : digitVal (digitChar n) = n := by
  interval_cases n <;> decide

lemma digitChar_toNat {n : Nat} (h : n < 10) : (digitChar n).toNat = 48 + n := by
  interval_cases n <;> decide

lemma renderNat_eq (n : Nat) : renderNat n =
    if n < 10 then [digitChar n] else renderNat (n / 10) ++ [digitChar (n % 10)] := by
  rw [renderNat]
  split <;> rfl

lemma digitsVal_single (acc : Nat) (c : Char) : digitsVal acc [c] = 10 * acc + digitVal c := rfl

lemma renderNat_val (n : Nat) : digitsVal 0 (renderNat n) = n := by
  induction n using Nat.strong_induction_on with
  | _ n ih =>
    by_cases h : n < 10
    · rw [renderNat_eq, if_pos h, digitsVal_single, digitVal_digitChar h]
      omega
    · rw [renderNat_eq, if_neg h, digitsVal_append,
        ih (n / 10) (Nat.div_lt_self (by omega) (by omega)), digitsVal_single,
        digitVal_digitChar (Nat.mod_lt n (by omega))]
      omega

lemma digitsVal_replicate_zero (j : Nat) :
    digitsVal 0 (List.replicate j (digitChar 0)) = 0 := by
  induction j with
  | zero => rfl
  | succ j ih =>
    rw [List.replicate_succ]
    show digitsVal (10 * 0 + digitVal (digitChar 0)) (List.replicate j (digitChar 0)) = 0
    rw [digitVal_digitChar (show (0 : Nat) < 10 by omega)]
    simpa using ih

lemma fixedDigits_val (k f : Nat) : digitsVal 0 (fixedDigits k f) = f := by
  unfold fixedDigits
  rw [digitsVal_append, digitsVal_replicate_zero, renderNat_val]

lemma renderNat_digitBound (n : Nat) :
    ∀ c ∈ renderNat n, 48 ≤ c.toNat ∧ c.toNat ≤ 57 := by
  induction n using Nat.strong_induction_on with
  | _ n ih =>
    by_cases h : n < 10
    · rw [renderNat_eq, if_pos h]
      intro c hc
      simp only [List.mem_singleton] at hc
      subst hc
      rw [digitChar_toNat h]
      omega
    · rw [renderNat_eq, if_neg h]
      intro c hc
      rcases List.mem_append.mp hc with h1 | h1
      · exact ih (n / 10) (Nat.div_lt_self (by omega) (by omega)) c h1
      · simp only [List.mem_singleton] at h1
        subst h1
        rw [digitChar_toNat (Nat.mod_lt n (by omega))]
        have := Nat.mod_lt n (show 0 < 10 by omega)
        omega

lemma fixedDigits_digitBound (k f : Nat) :
    ∀ c ∈ fixedDigits k f, 48 ≤ c.toNat ∧ c.toNat ≤ 57 := by
  intro c hc
  rcases List.mem_append.mp hc with h1 | h1
  · rw [List.eq_of_mem_replicate h1, digitChar_toNat (by omega : (0 : Nat) < 10)]
    omega
  · exact renderNat_digitBound f c h1

lemma split_at_marker (m : Char) :
    ∀ {a a' b b' : List Char}, (∀ c ∈ a, c ≠ m) → (∀ c ∈ a', c ≠ m) →
      a ++ m :: b = a' ++ m :: b' → a = a' ∧ b = b' := by
  intro a
  induction a with
  | nil =>
    intro a' b b' _ ha' h
    cases a' with
    | nil => simpa using h
    | cons x xs =>
      exfalso
      simp only [List.nil_append, List.cons_append, List.cons.injEq] at h
      exact ha' x (by simp) h.1.symm
  | cons x xs ih =>
    intro a' b b' ha ha' h
    cases a' with
    | nil =>
      exfalso
      simp only [List.cons_append, List.nil_append, List.cons.injEq] at h
      exact ha x (by simp) h.1
    | cons y ys =>
      simp only [List.cons_append, List.cons.injEq] at h
      obtain ⟨rfl, h2⟩ := h
      obtain ⟨rfl, hb⟩ := ih (fun c hc => ha c (by simp [hc]))
        (fun c hc => ha' c (by simp [hc])) h2
      exact ⟨rfl, hb⟩

lemma ne_of_toNat_ne {c c' : Char} (h : c.toNat ≠ c'.toNat) : c ≠ c' :=
  fun he => h (congrArg Char.toNat he)

lemma fmtFixed_data_nonneg (k : Nat) (q : ℚ) (h0 : 0 ≤ q) :
    (fmtFixed k q).data = renderNat (scaled k q / 10 ^ k) ++
      Char.ofNat 46 :: fixedDigits k (scaled k q % 10 ^ k) := by
  unfold fmtFixed
  rw [if_neg (not_lt.2 h0)]
  rfl

lemma fmtFixed_inj {k : Nat} {q q' : ℚ} (h0 : 0 ≤ q) (h0' : 0 ≤ q')
    (h : (fmtFixed k q).data = (fmtFixed k q').data) : scaled k q = scaled k q' := by
  rw [fmtFixed_data_nonneg k q h0, fmtFixed_data_nonneg k q' h0'] at h
  have hdigits : ∀ n : Nat, ∀ c ∈ renderNat n, c ≠ Char.ofNat 46 := by
    intro n c hc
    refine ne_of_toNat_ne ?_
    have hb := renderNat_digitBound n c hc
    have h46 : (Char.ofNat 46).toNat = 46 := by decide
    omega
  obtain ⟨h1, h2⟩ := split_at_marker (Char.ofNat 46) (hdigits _) (hdigits _) h
  have e1 : scaled k q / 10 ^ k = scaled k q' / 10 ^ k := by
    have hv := congrArg (digitsVal 0) h1
    rwa [renderNat_val, renderNat_val] at hv
  have e2 : scaled k q % 10 ^ k = scaled k q' % 10 ^ k := by
    have hv := congrArg (digitsVal 0) h2
    rwa [fixedDigits_val, fixedDigits_val] at hv
  conv_lhs => rw [← Nat.div_add_mod (scaled k q) (10 ^ k)]
  conv_rhs => rw [← Nat.div_add_mod (scaled k q') (10 ^ k)]
  rw [e1, e2]

lemma fmt2_congr {q q' : ℚ} (h0 : 0 ≤ q) (h0' : 0 ≤ q')
    (e : scaled 2 q = scaled 2 q') : fmt2 q = fmt2 q' := by
  unfold fmt2 fmtFixed
  rw [if_neg (not_lt.2 h0), if_neg (not_lt.2 h0'), e]

/-- Agreement of the two-decimal roundings makes the fingerprints equal
(shared by the C3 and C10 developments). -/
lemma get_setup_hash_congr {w h p w' h' p' : ℚ}
    (h0w : 0 ≤ w) (h0w' : 0 ≤ w') (h0h : 0 ≤ h) (h0h' : 0 ≤ h')
    (h0p : 0 ≤ p) (h0p' : 0 ≤ p')
    (e1 : scaled 2 w = scaled 2 w') (e2 : scaled 2 h = scaled 2 h')
    (e3 : scaled 2 p = scaled 2 p') :
    get_setup_hash w h p = get_setup_hash w' h' p' := by
  unfold get_setup_hash
  rw [fmt2_congr h0w h0w' e1, fmt2_congr h0h h0h' e2, fmt2_congr h0p h0p' e3]

lemma get_setup_hash_data (w h p : ℚ) :
    (get_setup_hash w h p).data =
      'f' :: 'o' :: 'v' :: '_' ::
        ((fmt2 w).data ++ '_' ::
          ((fmt2 h).data ++ '_' :: 'p' :: (fmt2 p).data)) := by
  show ("fov_" ++ fmt2 w ++ "_" ++ fmt2 h ++ "_p" ++ fmt2 p).data = _
  simp only [String.data_append]
  simp

lemma fmt2_ne_underscore (q : ℚ) (h0 : 0 ≤ q) :
    ∀ c ∈ (fmt2 q).data, c ≠ '_' := by
  intro c hc
  rw [show fmt2 q = fmtFixed 2 q from rfl, fmtFixed_data_nonneg 2 q h0] at hc
  refine ne_of_toNat_ne ?_
  have h95 : Char.toNat '_' = 95 := by decide
  have h46 : (Char.ofNat 46).toNat = 46 := by decide
  rcases List.mem_append.mp hc with h1 | h1
  · have hb := renderNat_digitBound _ c h1
    omega
  · rcases List.mem_cons.mp h1 with rfl | h2
    · omega
    · have hb := fixedDigits_digitBound _ _ c h2
      omega

/-! ## C3: fingerprint sensitivity -/

/-- C3 amended: the fingerprint is a deterministic function of the pair
of FOV dimensions and the padding alone (the image resolution and survey
are fixed constants and not part of the key), and two nonnegative
parameter triples produce the same fingerprint exactly when each
component agrees after rounding to two decimals. -/
theorem C3_fingerprint_two_decimals (w h p w' h' p' : ℚ)
    (h0w : 0 ≤ w) (h0h : 0 ≤ h) (h0p : 0 ≤ p)
    (h0w' : 0 ≤ w') (h0h' : 0 ≤ h') (h0p' : 0 ≤ p') :
    get_setup_hash w h p = get_setup_hash w' h' p' ↔
      (scaled 2 w = scaled 2 w' ∧ scaled 2 h = scaled 2 h' ∧ scaled 2 p = scaled 2 p') := by
  constructor
  · intro heq
    have hd := congrArg String.data heq
    rw [get_setup_hash_data, get_setup_hash_data] at hd
    simp only [List.cons.injEq, true_and] at hd
    obtain ⟨hw, hd2⟩ := split_at_marker '_'
      (fmt2_ne_underscore w h0w) (fmt2_ne_underscore w' h0w') hd
    obtain ⟨hh, hd3⟩ := split_at_marker '_'
      (fmt2_ne_underscore h h0h) (fmt2_ne_underscore h' h0h') hd2
    simp only [List.cons.injEq, true_and] at hd3
    exact ⟨fmtFixed_inj h0w h0w' hw, fmtFixed_inj h0h h0h' hh,
      fmtFixed_inj h0p h0p' hd3⟩
  · rintro ⟨e1, e2, e3⟩
    exact get_setup_hash_congr h0w h0w' h0h h0h' h0p h0p' e1 e2 e3

/-! Concrete two-decimal roundings used by the C3/C10 witnesses. -/

lemma scaled_1051 : scaled 2 ((1051 : ℚ) / 1000) = 105 := by
  unfold scaled
  rw [abs_of_nonneg (by norm_num : (0 : ℚ) ≤ 1051 / 1000), round_eq]
  norm_num
  rfl

lemma scaled_1052 : scaled 2 ((1052 : ℚ) / 1000) = 105 := by
  unfold scaled
  rw [abs_of_nonneg (by norm_num : (0 : ℚ) ≤ 1052 / 1000), round_eq]
  norm_num
  rfl

lemma scaled_105 : scaled 2 ((105 : ℚ) / 100) = 105 := by
  unfold scaled
  rw [abs_of_nonneg (by norm_num : (0 : ℚ) ≤ 105 / 100), round_eq]
  norm_num
  rfl

lemma scaled_106 : scaled 2 ((106 : ℚ) / 100) = 106 := by
  unfold scaled
  rw [abs_of_nonneg (by norm_num : (0 : ℚ) ≤ 106 / 100), round_eq]
  norm_num
  rfl

/-- C3 counterexample: two requests whose `imagePadding` values differ
(1.051 vs 1.052) derive the SAME fingerprint, because the key rounds to
two decimals — the claimed "changing imagePadding yields a different
CacheFingerprint" is false. -/
theorem C3_counterexample :
    ((1051 : ℚ) / 1000 ≠ (1052 : ℚ) / 1000) ∧
    get_setup_hash 1 1 ((1051 : ℚ) / 1000) = get_setup_hash 1 1 ((1052 : ℚ) / 1000) := by
  constructor
  · norm_num
  · exact get_setup_hash_congr (by norm_num) (by norm_num) (by norm_num) (by norm_num)
      (by norm_num) (by norm_num) rfl rfl (scaled_1051.trans scaled_1052.symm)

/-- Witness for the amended C3: paddings whose two-decimal roundings
differ (1.05 vs 1.06) produce different fingerprints. -/
theorem C3_witness :
    get_setup_hash 1 1 ((105 : ℚ) / 100) ≠ get_setup_hash 1 1 ((106 : ℚ) / 100) := by
  intro heq
  have hs := (C3_fingerprint_two_decimals 1 1 ((105 : ℚ) / 100) 1 1 ((106 : ℚ) / 100)
    (by norm_num) (by norm_num) (by norm_num)
    (by norm_num) (by norm_num) (by norm_num)).mp heq
  rw [scaled_105, scaled_106] at hs
  exact absurd hs.2.2 (by norm_num)

/-! ## C10: rounded agreement shares one cache partition -/

/-- C10: the fingerprint rounds its three inputs to two decimals, so two
setups whose FOV width, FOV height and padding agree after two-decimal
rounding — even with different unrounded values — get the identical
fingerprint string, and every object's cache URL, file path and
partition directory coincide (one shared partition and image files). -/
theorem C10_rounded_setups_share_partition (w h p w' h' p' : ℚ) (oid : String)
    (h0w : 0 ≤ w) (h0h : 0 ≤ h) (h0p : 0 ≤ p)
    (h0w' : 0 ≤ w') (h0h' : 0 ≤ h') (h0p' : 0 ≤ p')
    (e1 : scaled 2 w = scaled 2 w') (e2 : scaled 2 h = scaled 2 h')
    (e3 : scaled 2 p = scaled 2 p') :
    get_setup_hash w h p = get_setup_hash w' h' p' ∧
    get_cache_info oid (get_setup_hash w h p) =
      get_cache_info oid (get_setup_hash w' h' p') := by
  have heq := get_setup_hash_congr h0w h0w' h0h h0h' h0p h0p' e1 e2 e3
  exact ⟨heq, by rw [heq]⟩

/-- Witness for C10: setups with paddings 1.051 and 1.052 (equal after
rounding) share fingerprint and cache paths for object `M31`. -/
theorem C10_witness :
    get_setup_hash 1 1 ((1051 : ℚ) / 1000) = get_setup_hash 1 1 ((1052 : ℚ) / 1000) ∧
    get_cache_info "M31" (get_setup_hash 1 1 ((1051 : ℚ) / 1000)) =
      get_cache_info "M31" (get_setup_hash 1 1 ((1052 : ℚ) / 1000)) :=
  C10_rounded_setups_share_partition 1 1 ((1051 : ℚ) / 1000) 1 1 ((1052 : ℚ) / 1000) "M31"
    (by norm_num) (by norm_num) (by norm_num) (by norm_num) (by norm_num) (by norm_num)
    rfl rfl (scaled_1051.trans scaled_1052.symm)
